import Mathlib

/-!
Verification of the replay-ingestion pipeline in `watch_replays.py`.

The development shallowly embeds the pipeline: the dedup store
(`processed_replays` global dict plus the `processed_replays.json` file),
`parse_replay`, `wait_for_stable_file`, the worker loop `parse_worker`,
and the `ReplayEventHandler.on_created` filename filter.

Modelling conventions:
- machine time is discretised in 1-second ticks (the poll interval of
  `wait_for_stable_file` is `check_interval = 1`); a file on disk is a
  `FileTrace`, giving its size at each tick, `none` when it does not exist;
- the JSON serialisation done by `json.dump` / `json.load` is treated as the
  identity on the abstract mapping: the disk holds `Option Store`, where
  `none` stands for a missing or unparseable file (the
  `FileNotFoundError` / `JSONDecodeError` fallback of
  `load_processed_replays`);
- the unbounded `while` loops of the detector are given explicit fuel;
  running out of fuel is the distinguished outcome `fuelOut`, never used to
  settle a claim positively.
-/

namespace WatchReplays

/-! ## Dedup store: `processed_replays` and its JSON persistence -/

/-- A JSON-object value: an association list of string fields. -/
abbrev Rec := List (String × String)

/-- The record written by `parse_replay` (line 75 of `watch_replays.py`):
`processed_replays[file_path] = {"status": "processed"}`. -/
def procRecord : Rec := [("status", "processed")]

/-- The `processed_replays` mapping: absolute path to record, keyed. -/
abbrev Store := List (String × Rec)

/-- Association-list lookup (Python dict read). -/
def alookup {α : Type} : List (String × α) → String → Option α
  | [], _ => none
  | (k, v) :: rest, key => if k = key then some v else alookup rest key

/-- Python dict assignment `d[k] = v`: overwrite in place, else append. -/
def setKey {α : Type} : List (String × α) → String → α → List (String × α)
  | [], p, r => [(p, r)]
  | (q, r') :: rest, p, r =>
    if q = p then (q, r) :: rest else (q, r') :: setKey rest p r

/-- Process state: the in-memory global dict and the contents of
`processed_replays.json` on disk (already parsed; `none` = missing/corrupt). -/
structure SysState where
  mem : Store
  disk : Option Store
deriving DecidableEq

/-- Function `load_processed_replays` (lines 38-45): read the JSON file into the
global dict; on `FileNotFoundError`/`JSONDecodeError`, use the empty dict. -/
def load_processed_replays (s : SysState) : SysState :=
  { s with mem := s.disk.getD [] }

/-- Function `save_processed_replays` (lines 47-50): rewrite the whole mapping to the
JSON file. This variant models the successful write. -/
def save_processed_replays (s : SysState) : SysState :=
  { s with disk := some s.mem }

/-- Outcome of the `requests.post` call to the parse endpoint:
HTTP 200, a non-200 status, or a raised transport error/timeout. -/
inductive ApiResult
  | success
  | apiError (code : Nat)
  | exn
deriving DecidableEq

/-- Result of one `parse_replay` call: the new process state and whether the
POST to the parse endpoint was actually sent. -/
structure ParseStep where
  state : SysState
  posted : Bool
deriving DecidableEq

/-- Function `parse_replay` (lines 52-76): skip if the path is already in
`processed_replays`; otherwise POST to the endpoint (`res` is the response,
only logged), then mark the path processed and save. The record is written
and saved regardless of `res`. -/
def parse_replay (p : String) (res : ApiResult) (s : SysState) : ParseStep :=
  if (alookup s.mem p).isSome then
    ParseStep.mk s false
  else
    match res with
    | _ =>
      ParseStep.mk
        (save_processed_replays { s with mem := setKey s.mem p procRecord })
        true

/-- Spec-level name for lines 74-76 of `parse_replay`: store the record for
`p` and synchronously persist the full mapping. -/
def markProcessed (p : String) (s : SysState) : SysState :=
  save_processed_replays { s with mem := setKey s.mem p procRecord }

/-- Spec-level name for the line-57 membership test. -/
def isProcessed (p : String) (s : SysState) : Bool :=
  (alookup s.mem p).isSome

/-! ## Filename filter: `ReplayEventHandler.FINAL_REPLAY_REGEX` -/

/-- Consume a literal character sequence; `none` on mismatch. -/
def dropLit : List Char → List Char → Option (List Char)
  | [], cs => some cs
  | _ :: _, [] => none
  | l :: ls, c :: cs => if c = l then dropLit ls cs else none

/-- Consume exactly `n` ASCII digits (`\d{n}`); `none` on mismatch.
(Python `\d` also accepts non-ASCII decimal digits; the filenames at issue
are ASCII, where the two coincide.) -/
def dropDigits : Nat → List Char → Option (List Char)
  | 0, cs => some cs
  | _ + 1, [] => none
  | n + 1, c :: cs => if c.isDigit then dropDigits n cs else none

/-- Match the anchored tail of the pattern,
` @\d{4}\.\d{2}\.\d{2} \d{6}\.aoe2record$`, against the whole remaining
input. `$` accepts the end of the string or a single trailing newline. -/
def dateTimeTail (cs : List Char) : Bool :=
  (Option.isSome <| do
    let cs ← dropLit [' ', '@'] cs
    let cs ← dropDigits 4 cs
    let cs ← dropLit ['.'] cs
    let cs ← dropDigits 2 cs
    let cs ← dropLit ['.'] cs
    let cs ← dropDigits 2 cs
    let cs ← dropLit [' '] cs
    let cs ← dropDigits 6 cs
    let cs ← dropLit ".aoe2record".toList cs
    if cs = [] ∨ cs = ['\n'] then some () else none)

/-- Pattern piece `.*` followed by the tail: try the tail at every split point, where the
characters skipped by `.*` may not include a newline. -/
def scanFrom : List Char → Bool
  | [] => false
  | c :: cs => dateTimeTail (c :: cs) || (decide (c ≠ '\n') && scanFrom cs)

/-- Predicate for `FINAL_REPLAY_REGEX.match(filename)` (line 139): the anchored-at-start
match of `MP Replay v.* @\d{4}\.\d{2}\.\d{2} \d{6}\.aoe2record$`. -/
def finalReplayRegexAccepts (s : String) : Bool :=
  match dropLit "MP Replay v".toList s.toList with
  | none => false
  | some rest => scanFrom rest

/-- A watchdog filesystem event as seen by `on_created`. -/
structure FsEvent where
  is_directory : Bool
  src_path : String

/-- Model of `os.path.basename`: the component after the last slash. -/
def basename (p : String) : String :=
  String.mk (p.toList.foldl (fun acc c => if c = '/' then [] else acc ++ [c]) [])

/-- Handler `ReplayEventHandler.on_created` (lines 141-149): ignore directories;
enqueue `src_path` on `parse_queue` exactly when the basename matches the
regex; otherwise log and drop. Returns the enqueued item, if any. -/
def on_created (ev : FsEvent) : Option String :=
  if ev.is_directory then none
  else if finalReplayRegexAccepts (basename ev.src_path) then some ev.src_path
  else none

/-! ## Stability detector: `wait_for_stable_file` -/

/-- The watched file over discrete 1-second ticks: `file t` is its size at
tick `t`, `none` when the path does not exist then. -/
abbrev FileTrace := Nat → Option Nat

/-- Outcome of the first stability loop (lines 87-99). -/
inductive FirstPassOut
  | done (t : Nat) (lastSize : Int) (polls : Nat)
  | gone (t : Nat) (polls : Nat)
  | fuelOut
deriving DecidableEq

/-- The first stability loop of `wait_for_stable_file` (lines 87-99):
`while stable_time < stable_seconds`, each iteration checks existence, reads
the size, increments the counter when the size is unchanged and resets it
(recording the new size) otherwise, then sleeps one second. `lastSize` is an
`Int` because line 82 initialises it to `-1`. `polls` counts iterations;
each iteration advances `t` by the 1-second sleep. On line 97 the size is
read a second time; within one tick both reads return the same value. -/
def firstPass (file : FileTrace) (stableSeconds : Nat) :
    Nat → Int → Nat → Nat → Nat → FirstPassOut
  | 0, _, _, _, _ => FirstPassOut.fuelOut
  | fuel + 1, lastSize, stableTime, t, polls =>
    if stableSeconds ≤ stableTime then
      FirstPassOut.done t lastSize polls
    else
      match file t with
      | none => FirstPassOut.gone t polls
      | some sz =>
        if (sz : Int) = lastSize then
          firstPass file stableSeconds fuel lastSize (stableTime + 1) (t + 1) (polls + 1)
        else
          firstPass file stableSeconds fuel (sz : Int) 0 (t + 1) (polls + 1)

/-- Outcome of a whole `wait_for_stable_file` call. -/
inductive WaitOut
  | stable (t : Nat)
  | disappeared (t : Nat)
  | raised (t : Nat)
  | fuelOut
deriving DecidableEq

/-- Function `wait_for_stable_file` (lines 78-111). After the first loop succeeds,
the verification phase is `time.sleep(20)` — the literal constant on line
104, not the `verification_seconds` parameter — followed by one
`os.path.getsize` with no existence check: if the file is gone at that tick
the call raises `FileNotFoundError` (`WaitOut.raised`). If the re-read size
equals the size at entry to verification, the file is declared stable and
`parse_replay` runs; otherwise line 111 restarts the whole check, passing
only `stable_seconds` (so `verification_seconds` resets to its default).
`restartFuel` bounds the number of restarts. -/
def wait_for_stable_file (file : FileTrace)
    (stableSeconds verificationSeconds : Nat) (t fpFuel : Nat) :
    Nat → WaitOut
  | 0 => WaitOut.fuelOut
  | restartFuel + 1 =>
    match firstPass file stableSeconds fpFuel (-1) 0 t 0 with
    | FirstPassOut.fuelOut => WaitOut.fuelOut
    | FirstPassOut.gone u _ => WaitOut.disappeared u
    | FirstPassOut.done u lastSize _ =>
      match file (u + 20) with
      | none => WaitOut.raised (u + 20)
      | some newSize =>
        if (newSize : Int) = lastSize then WaitOut.stable (u + 20)
        else wait_for_stable_file file stableSeconds 20 (u + 20) fpFuel restartFuel

/-! ## Worker loop: `parse_worker` -/

/-- Result of the worker processing one dequeued candidate. -/
structure CandidateOut where
  state : SysState
  wait : WaitOut
  posted : Bool
deriving DecidableEq

/-- One dequeued candidate, end to end: `wait_for_stable_file` runs first
(the worker consults no dedup state before it); `parse_replay` runs only on
a stable verdict (line 108). On any other verdict the store is untouched. -/
def processCandidate (file : FileTrace) (p : String) (api : ApiResult)
    (ss vs t fpFuel rFuel : Nat) (s : SysState) : CandidateOut :=
  match wait_for_stable_file file ss vs t fpFuel rFuel with
  | WaitOut.stable u =>
    let st := parse_replay p api s
    CandidateOut.mk st.state (WaitOut.stable u) st.posted
  | out => CandidateOut.mk s out false

/-- A system-level event: a candidate dequeued by `parse_worker` (which
calls `wait_for_stable_file(file_path, stable_seconds=60)`, line 126), or a
process restart, which reloads the persisted store (line 199). -/
inductive Event
  | candidate (p : String) (file : FileTrace) (t fpFuel rFuel : Nat) (api : ApiResult)
  | restart

/-- State transition of one event. -/
def stepState (s : SysState) : Event → SysState
  | Event.candidate p file t fpFuel rFuel api =>
    (processCandidate file p api 60 20 t fpFuel rFuel s).state
  | Event.restart => load_processed_replays s

/-- The POSTs to the parse endpoint emitted by one event. -/
def stepPosts (s : SysState) : Event → List String
  | Event.candidate p file t fpFuel rFuel api =>
    if (processCandidate file p api 60 20 t fpFuel rFuel s).posted then [p] else []
  | Event.restart => []

/-- All POSTs emitted while running an event sequence. -/
def runPosts : SysState → List Event → List String
  | _, [] => []
  | s, e :: es => stepPosts s e ++ runPosts (stepState s e) es

/-- The path `p` has a ProcessingRecord in the dedup store: in the in-memory
dict and in the persisted JSON mapping (a missing disk file records nothing). -/
def recordedB (p : String) (s : SysState) : Bool :=
  (alookup s.mem p).isSome && (alookup (s.disk.getD []) p).isSome

/-! ## Worker loop with fallible persistence (for the dedup-save failure) -/

/-- Result of one `parse_replay` call when the save may fail. `crashed`
means an exception escaped `save_processed_replays`. -/
structure ParseStepF where
  state : SysState
  posted : Bool
  crashed : Bool
deriving DecidableEq

/-- Variant of `parse_replay` with a fallible `save_processed_replays`. The dict
assignment on line 75 happens first; when the `open`/`json.dump` on lines
49-50 raises, the disk is unchanged and the exception propagates —
`save_processed_replays` and `parse_replay` have no handler around it. -/
def parse_replay_f (saveOk : Bool) (p : String) (res : ApiResult)
    (s : SysState) : ParseStepF :=
  if (alookup s.mem p).isSome then
    ParseStepF.mk s false false
  else
    match res with
    | _ =>
      let s1 : SysState := { s with mem := setKey s.mem p procRecord }
      if saveOk then ParseStepF.mk (save_processed_replays s1) true false
      else ParseStepF.mk s1 true true

/-- The `parse_worker` consumer loop (lines 120-127) over a queue of
already-stable candidates, with fallible persistence: an uncaught exception
from the body terminates the `while True` loop, leaving the rest of the
queue unprocessed. Returns final state, POSTs emitted, and whether the
loop died on an exception. -/
def runWorkerF (saveOk : Bool) (api : String → ApiResult) :
    SysState → List String → SysState × List String × Bool
  | s, [] => (s, [], false)
  | s, p :: ps =>
    let st := parse_replay_f saveOk p (api p) s
    if st.crashed then (st.state, if st.posted then [p] else [], true)
    else
      let rest := runWorkerF saveOk api st.state ps
      (rest.1, (if st.posted then [p] else []) ++ rest.2.1, rest.2.2)

/-- Queue drain at the `parse_replay` level with infallible persistence
(the C7 setting: every candidate is already stable). Returns the final
state and the POSTs emitted. -/
def drainQueue (api : String → ApiResult) :
    SysState → List String → SysState × List String
  | s, [] => (s, [])
  | s, p :: ps =>
    let st := parse_replay p (api p) s
    let rest := drainQueue api st.state ps
    (rest.1, (if st.posted then [p] else []) ++ rest.2)

/-! ## Concrete traces used by counterexamples and witnesses -/

/-- A file of constant size 7, never deleted. -/
def constTrace7 : FileTrace := fun _ => some 7

/-- A file of constant size 5 that is deleted at tick 23: present for the
whole first pass (with `stable_seconds = 2` it ends at tick 3) and gone
when the verification re-read happens at tick 23. -/
def vanishTrace : FileTrace := fun t => if t < 23 then some 5 else none

/-- A path that never exists. -/
def absentTrace : FileTrace := fun _ => none

/-- A state whose dedup store (memory and disk) already records `/r/p`. -/
def procState6 : SysState :=
  SysState.mk [("/r/p", procRecord)] (some [("/r/p", procRecord)])

/-! ## Helper lemmas -/

theorem alookup_setKey {α : Type} (m : List (String × α)) (p q : String) (r : α) :
    alookup (setKey m p r) q = if p = q then some r else alookup m q := by
  induction m with
  | nil => simp [setKey, alookup]
  | cons hd tl ih =>
    obtain ⟨k, v⟩ := hd
    by_cases hk : k = p
    · subst hk
      by_cases hq : k = q <;> simp [setKey, alookup, hq]
    · by_cases hq : k = q
      · subst hq
        simp [setKey, alookup, hk, if_neg (Ne.symm hk)]
      · simp [setKey, alookup, hk, hq, ih]

theorem alookup_setKey_self {α : Type} (m : List (String × α)) (p : String) (r : α) :
    alookup (setKey m p r) p = some r := by
  simp [alookup_setKey]

theorem parse_replay_of_present (p : String) (res : ApiResult) (s : SysState)
    (h : (alookup s.mem p).isSome = true) :
    parse_replay p res s = ParseStep.mk s false := by
  simp [parse_replay, h]

theorem parse_replay_of_absent (p : String) (res : ApiResult) (s : SysState)
    (h : alookup s.mem p = none) :
    parse_replay p res s = ParseStep.mk (markProcessed p s) true := by
  cases res <;> simp [parse_replay, h, markProcessed]

theorem parse_replay_keeps_value (p q : String) (res : ApiResult) (s : SysState)
    (v : Rec) (h : alookup s.mem q = some v) :
    alookup (parse_replay p res s).state.mem q = some v := by
  by_cases hp : (alookup s.mem p).isSome = true
  · rw [parse_replay_of_present p res s hp]
    exact h
  · have hp' : alookup s.mem p = none := by
      cases hmp : alookup s.mem p with
      | none => rfl
      | some w => rw [hmp] at hp; simp at hp
    rw [parse_replay_of_absent p res s hp']
    have hpq : p ≠ q := by
      intro he
      rw [he, h] at hp'
      exact Option.noConfusion hp'
    simp [markProcessed, save_processed_replays, alookup_setKey, hpq, h]

theorem alookup_eq_none_of_not_isSome {α : Type} (o : Option α)
    (h : ¬o.isSome = true) : o = none := by
  cases o with
  | none => rfl
  | some w => simp at h

theorem recordedB_parse (p q : String) (res : ApiResult) (s : SysState)
    (h : recordedB q s = true) : recordedB q (parse_replay p res s).state = true := by
  simp only [recordedB, Bool.and_eq_true] at h
  obtain ⟨hmem, hdisk⟩ := h
  obtain ⟨v, hv⟩ := Option.isSome_iff_exists.mp hmem
  by_cases hp : (alookup s.mem p).isSome = true
  · rw [parse_replay_of_present p res s hp]
    simp only [recordedB, Bool.and_eq_true]
    exact ⟨hmem, hdisk⟩
  · have hp' : alookup s.mem p = none := alookup_eq_none_of_not_isSome _ hp
    rw [parse_replay_of_absent p res s hp']
    have hpq : p ≠ q := by
      intro he
      rw [he, hv] at hp'
      exact Option.noConfusion hp'
    simp [recordedB, markProcessed, save_processed_replays, alookup_setKey, hpq, hv]

theorem recordedB_load (q : String) (s : SysState)
    (h : recordedB q s = true) : recordedB q (load_processed_replays s) = true := by
  simp only [recordedB, Bool.and_eq_true] at h
  simp [recordedB, load_processed_replays, h.2]

theorem recordedB_mem (p : String) (s : SysState) (h : recordedB p s = true) :
    (alookup s.mem p).isSome = true := by
  simp only [recordedB, Bool.and_eq_true] at h
  exact h.1

theorem processCandidate_state_of_present (file : FileTrace) (p : String)
    (api : ApiResult) (ss vs t fpFuel rFuel : Nat) (s : SysState)
    (h : (alookup s.mem p).isSome = true) :
    (processCandidate file p api ss vs t fpFuel rFuel s).state = s := by
  simp only [processCandidate]
  split
  · rw [parse_replay_of_present p api s h]
  · rfl

theorem processCandidate_posted_of_present (file : FileTrace) (p : String)
    (api : ApiResult) (ss vs t fpFuel rFuel : Nat) (s : SysState)
    (h : (alookup s.mem p).isSome = true) :
    (processCandidate file p api ss vs t fpFuel rFuel s).posted = false := by
  simp only [processCandidate]
  split
  · rw [parse_replay_of_present p api s h]
  · rfl

theorem recordedB_stepState (q : String) (s : SysState) (e : Event)
    (h : recordedB q s = true) : recordedB q (stepState s e) = true := by
  cases e with
  | candidate p file t fpFuel rFuel api =>
    simp only [stepState, processCandidate]
    split
    · exact recordedB_parse p q api s h
    · exact h
  | restart => exact recordedB_load q s h

theorem stepPosts_not_recorded (q : String) (s : SysState) (e : Event)
    (h : recordedB q s = true) : q ∉ stepPosts s e := by
  cases e with
  | candidate p file t fpFuel rFuel api =>
    simp only [stepPosts]
    by_cases hpq : p = q
    · subst hpq
      rw [processCandidate_posted_of_present file p api 60 20 t fpFuel rFuel s
        (recordedB_mem p s h)]
      simp
    · split <;> simp [Ne.symm hpq]
  | restart => simp [stepPosts]

theorem parse_replay_keeps_none (q p : String) (res : ApiResult) (s : SysState)
    (hqp : q ≠ p) (h : alookup s.mem p = none) :
    alookup (parse_replay q res s).state.mem p = none := by
  by_cases hq : (alookup s.mem q).isSome = true
  · rw [parse_replay_of_present q res s hq]
    exact h
  · rw [parse_replay_of_absent q res s (alookup_eq_none_of_not_isSome _ hq)]
    simp [markProcessed, save_processed_replays, alookup_setKey, hqp, h]

theorem firstPass_const_steady (file : FileTrace) (c ss : Nat)
    (hconst : ∀ u, file u = some c) :
    ∀ (fuel stTime t polls : Nat), stTime ≤ ss → ss - stTime < fuel →
      firstPass file ss fuel (c : Int) stTime t polls =
        FirstPassOut.done (t + (ss - stTime)) (c : Int) (polls + (ss - stTime)) := by
  intro fuel
  induction fuel with
  | zero =>
    intro stTime t polls h1 h2
    exact absurd h2 (Nat.not_lt_zero _)
  | succ f ih =>
    intro stTime t polls h1 h2
    by_cases hle : ss ≤ stTime
    · have h0 : ss - stTime = 0 := Nat.sub_eq_zero_of_le hle
      simp [firstPass, hle, h0]
    · have hrec := ih (stTime + 1) (t + 1) (polls + 1) (by omega) (by omega)
      have e1 : (t + 1) + (ss - (stTime + 1)) = t + (ss - stTime) := by omega
      have e2 : (polls + 1) + (ss - (stTime + 1)) = polls + (ss - stTime) := by omega
      rw [e1, e2] at hrec
      simp only [firstPass, if_neg hle, hconst t, if_pos rfl]
      exact hrec

theorem firstPass_const_fresh (file : FileTrace) (c ss t fuel : Nat)
    (hconst : ∀ u, file u = some c) (hss : 0 < ss) (hfuel : ss + 2 ≤ fuel) :
    firstPass file ss fuel (-1 : Int) 0 t 0 =
      FirstPassOut.done (t + (ss + 1)) (c : Int) (ss + 1) := by
  cases fuel with
  | zero => exact absurd hfuel (by omega)
  | succ f =>
    have hne : ¬((c : Nat) : Int) = (-1 : Int) := by omega
    have hrec := firstPass_const_steady file c ss hconst f 0 (t + 1) 1
      (Nat.zero_le ss) (by omega)
    have e1 : (t + 1) + (ss - 0) = t + (ss + 1) := by omega
    have e2 : 1 + (ss - 0) = ss + 1 := by omega
    rw [e1, e2] at hrec
    simp only [firstPass, if_neg (show ¬ss ≤ 0 by omega), hconst t, if_neg hne]
    exact hrec

theorem drainQueue_present (api : String → ApiResult) (p : String) (v : Rec) :
    ∀ (qs : List String) (s : SysState), alookup s.mem p = some v →
      alookup (drainQueue api s qs).1.mem p = some v ∧
      (drainQueue api s qs).2.count p = 0 := by
  intro qs
  induction qs with
  | nil => intro s h; simpa [drainQueue] using h
  | cons q rest ih =>
    intro s h
    have hkeep := parse_replay_keeps_value q p (api q) s v h
    have htail := ih (parse_replay q (api q) s).state hkeep
    refine ⟨htail.1, ?_⟩
    by_cases hqp : q = p
    · subst hqp
      have hpost : parse_replay q (api q) s = ParseStep.mk s false :=
        parse_replay_of_present q (api q) s (by simp [h])
      rw [hpost] at htail
      simpa [drainQueue, hpost, List.count_append] using htail.2
    · cases hb : (parse_replay q (api q) s).posted <;>
        simp [drainQueue, hb, htail.2, List.count_cons, hqp, Ne.symm hqp]

theorem drainQueue_absent (api : String → ApiResult) (p : String) :
    ∀ (qs : List String) (s : SysState), alookup s.mem p = none →
      (p ∈ qs → alookup (drainQueue api s qs).1.mem p = some procRecord ∧
        (drainQueue api s qs).2.count p = 1) ∧
      (p ∉ qs → alookup (drainQueue api s qs).1.mem p = none ∧
        (drainQueue api s qs).2.count p = 0) := by
  intro qs
  induction qs with
  | nil =>
    intro s h
    exact ⟨fun hmem => absurd hmem (List.not_mem_nil p), fun _ => by simpa [drainQueue] using h⟩
  | cons q rest ih =>
    intro s h
    by_cases hqp : q = p
    · subst hqp
      have hstep := parse_replay_of_absent q (api q) s h
      have hval : alookup (parse_replay q (api q) s).state.mem q = some procRecord := by
        rw [hstep]
        simp [markProcessed, save_processed_replays, alookup_setKey_self]
      have htail := drainQueue_present api q procRecord rest
        (parse_replay q (api q) s).state hval
      constructor
      · intro _
        refine ⟨htail.1, ?_⟩
        simp [drainQueue, hstep, htail.2, List.count_cons]
        rw [hstep] at htail
        simpa using htail.2
      · intro hn
        exact absurd (List.mem_cons_self q rest) hn
    · have hkeep := parse_replay_keeps_none q p (api q) s hqp h
      have htail := ih (parse_replay q (api q) s).state hkeep
      constructor
      · intro hmem
        have hmem' : p ∈ rest := by
          rcases List.mem_cons.mp hmem with h1 | h1
          · exact absurd h1.symm hqp
          · exact h1
        refine ⟨(htail.1 hmem').1, ?_⟩
        cases hb : (parse_replay q (api q) s).posted <;>
          simp [drainQueue, hb, (htail.1 hmem').2, List.count_cons, Ne.symm hqp]
      · intro hn
        have hn' : p ∉ rest := fun hmem' => hn (List.mem_cons_of_mem q hmem')
        refine ⟨(htail.2 hn').1, ?_⟩
        cases hb : (parse_replay q (api q) s).posted <;>
          simp [drainQueue, hb, (htail.2 hn').2, List.count_cons, Ne.symm hqp]

/-! ## Claim theorems -/

/-- Claim C1 (confirmed): once a path has a ProcessingRecord in the dedup
store — in the in-memory dict and in the persisted JSON mapping — no later
event, whether a re-enqueued candidate processed by the worker or a restart
that reloads the persisted store, ever POSTs that path to the parse
endpoint again. The POST in `parse_replay` is the only call site of the
downstream parser, and it is guarded by the line-57 membership test. -/
theorem c1_at_most_once_per_path (p : String) (es : List Event) :
    ∀ s : SysState, recordedB p s = true → p ∉ runPosts s es := by
  induction es with
  | nil => intro s _; simp [runPosts]
  | cons e rest ih =>
    intro s h
    simp only [runPosts, List.mem_append]
    rintro (h1 | h2)
    · exact stepPosts_not_recorded p s e h h1
    · exact ih (stepState s e) (recordedB_stepState p s e h) h2

/-- Witness for C1: a concrete recorded path survives a restart followed by
a re-enqueued candidate without being POSTed. -/
theorem c1_witness :
    recordedB "/r/p" procState6 = true ∧
    "/r/p" ∉ runPosts procState6
      [Event.restart, Event.candidate "/r/p" constTrace7 0 70 3 ApiResult.success] :=
  ⟨rfl, c1_at_most_once_per_path "/r/p"
    [Event.restart, Event.candidate "/r/p" constTrace7 0 70 3 ApiResult.success]
    procState6 rfl⟩

/-- Claim C2 (confirmed): the finalized-replay filename matches the filter
and is enqueued by `on_created`; the duplicate variant with the ` (1)`
infix does not match and is never enqueued. -/
theorem c2_filename_filter :
    finalReplayRegexAccepts "MP Replay v101.103.2359.0 @2025.03.14 202116.aoe2record" = true ∧
    finalReplayRegexAccepts "MP Replay v101.103.2359.0 @2025.03.14 202116 (1).aoe2record"
      = false ∧
    on_created (FsEvent.mk false
        "/sg/MP Replay v101.103.2359.0 @2025.03.14 202116.aoe2record") =
      some "/sg/MP Replay v101.103.2359.0 @2025.03.14 202116.aoe2record" ∧
    on_created (FsEvent.mk false
        "/sg/MP Replay v101.103.2359.0 @2025.03.14 202116 (1).aoe2record") = none :=
  ⟨rfl, rfl, rfl, rfl⟩

/-- Claim C3 (confirmed): after `markProcessed(p, _)` — the record stored
and the whole mapping synchronously persisted — `isProcessed(p)` returns
true, and it still does after a simulated restart that reloads the
persisted mapping from disk. -/
theorem c3_mark_then_isProcessed (p : String) (s : SysState) :
    isProcessed p (markProcessed p s) = true ∧
    isProcessed p (load_processed_replays (markProcessed p s)) = true := by
  constructor
  · simp [isProcessed, markProcessed, save_processed_replays, alookup_setKey_self]
  · simp [isProcessed, load_processed_replays, markProcessed, save_processed_replays,
      alookup_setKey_self]

/-- Counterexample to C4: a file present throughout the first pass
(`stable_seconds = 2`, stability at tick 3) but deleted before the
verification re-read at tick 23. The detector does not return Disappeared:
the unguarded `os.path.getsize` on line 105 raises `FileNotFoundError`. -/
theorem c4_counterexample :
    wait_for_stable_file vanishTrace 2 20 0 10 3 = WaitOut.raised 23 ∧
    WaitOut.raised 23 ≠ WaitOut.disappeared 23 :=
  ⟨rfl, by decide⟩

/-- Claim C4 as amended: if the file is missing at a first-pass poll the
loop returns Disappeared at that tick (first conjunct, from any in-loop
state), `wait_for_stable_file` propagates that verdict (second conjunct),
and on a Disappeared verdict the dispatcher leaves the dedup store
untouched, so the path has no ProcessingRecord afterwards (third
conjunct). Disappearance at the verification re-read instead raises, as
`c4_counterexample` shows. -/
theorem c4_disappeared_first_pass_only :
    (∀ (file : FileTrace) (ss fuel stTime t polls : Nat) (ls : Int),
        stTime < ss → file t = none →
        firstPass file ss (fuel + 1) ls stTime t polls = FirstPassOut.gone t polls) ∧
    (∀ (file : FileTrace) (ss vs t fpFuel rFuel u polls : Nat),
        firstPass file ss fpFuel (-1 : Int) 0 t 0 = FirstPassOut.gone u polls →
        wait_for_stable_file file ss vs t fpFuel (rFuel + 1) = WaitOut.disappeared u) ∧
    (∀ (file : FileTrace) (p : String) (api : ApiResult)
        (ss vs t fpFuel rFuel u : Nat) (s : SysState),
        wait_for_stable_file file ss vs t fpFuel rFuel = WaitOut.disappeared u →
        (processCandidate file p api ss vs t fpFuel rFuel s).state = s) := by
  refine ⟨?_, ?_, ?_⟩
  · intro file ss fuel stTime t polls ls h1 h2
    simp [firstPass, if_neg (show ¬ss ≤ stTime by omega), h2]
  · intro file ss vs t fpFuel rFuel u polls h
    simp [wait_for_stable_file, h]
  · intro file p api ss vs t fpFuel rFuel u s h
    simp [processCandidate, h]

/-- Witness for C4: the three conjuncts applied at concrete inputs. -/
theorem c4_witness :
    (0 < 1 ∧ vanishTrace 23 = none ∧
      firstPass vanishTrace 1 6 (-1 : Int) 0 23 0 = FirstPassOut.gone 23 0) ∧
    (firstPass absentTrace 1 1 (-1 : Int) 0 0 0 = FirstPassOut.gone 0 0 ∧
      wait_for_stable_file absentTrace 1 20 0 1 1 = WaitOut.disappeared 0) ∧
    (processCandidate absentTrace "/r/q" ApiResult.success 1 20 0 1 1
      (SysState.mk [] none)).state = SysState.mk [] none :=
  ⟨⟨by decide, rfl, c4_disappeared_first_pass_only.1 vanishTrace 1 5 0 23 0 (-1)
      (by decide) rfl⟩,
    ⟨rfl, c4_disappeared_first_pass_only.2.1 absentTrace 1 20 0 1 0 0 0 rfl⟩,
    c4_disappeared_first_pass_only.2.2 absentTrace "/r/q" ApiResult.success 1 20 0 1 1 0
      (SysState.mk [] none) rfl⟩

/-- Claim C5, the code bug: the verification phase of
`wait_for_stable_file` sleeps the hardcoded 20 seconds of line 104, never
`verification_seconds` — the behaviour is independent of that parameter
(first conjunct). At the failing input `verification_seconds = 5` on a
constant-size file with `stable_seconds = 2`, stability is declared at
tick 23 = 3 + 20, not at tick 8 = 3 + 5 (second conjunct). -/
theorem c5_verification_sleep_hardcoded :
    (∀ (file : FileTrace) (ss vs t fpFuel rFuel : Nat),
        wait_for_stable_file file ss vs t fpFuel rFuel =
          wait_for_stable_file file ss 20 t fpFuel rFuel) ∧
    wait_for_stable_file constTrace7 2 5 0 10 3 = WaitOut.stable 23 := by
  constructor
  · intro file ss vs t fpFuel rFuel
    cases rFuel with
    | zero => rfl
    | succ r => simp only [wait_for_stable_file]
  · rfl

/-- Counterexample to C6: a dequeued path that already has a
ProcessingRecord (in memory and on disk). The worker does not skip
immediately: the stability wait runs to completion — 61 first-pass polls
plus the 20-second verification sleep, finishing at tick 81 — and only
then is the POST skipped. -/
theorem c6_counterexample :
    recordedB "/r/p" procState6 = true ∧
    processCandidate constTrace7 "/r/p" ApiResult.success 60 20 0 70 3 procState6 =
      CandidateOut.mk procState6 (WaitOut.stable 81) false :=
  ⟨rfl, rfl⟩

/-- Claim C6 as amended: for a dequeued candidate that already has a
ProcessingRecord, no POST is made and the store is unchanged, but the
stability wait is executed regardless — the verdict of `processCandidate`
is exactly that of `wait_for_stable_file`, whatever the store holds. -/
theorem c6_skip_only_after_wait (file : FileTrace) (p : String) (api : ApiResult)
    (ss vs t fpFuel rFuel : Nat) (s : SysState)
    (h : (alookup s.mem p).isSome = true) :
    (processCandidate file p api ss vs t fpFuel rFuel s).state = s ∧
    (processCandidate file p api ss vs t fpFuel rFuel s).posted = false ∧
    (processCandidate file p api ss vs t fpFuel rFuel s).wait =
      wait_for_stable_file file ss vs t fpFuel rFuel := by
  refine ⟨processCandidate_state_of_present file p api ss vs t fpFuel rFuel s h,
    processCandidate_posted_of_present file p api ss vs t fpFuel rFuel s h, ?_⟩
  cases hw : wait_for_stable_file file ss vs t fpFuel rFuel with
  | stable u => simp [processCandidate, hw]
  | disappeared u => simp [processCandidate, hw]
  | raised u => simp [processCandidate, hw]
  | fuelOut => simp [processCandidate, hw]

/-- Witness for C6: the amended claim at a concrete recorded path. -/
theorem c6_witness :
    (alookup procState6.mem "/r/p").isSome = true ∧
    ((processCandidate absentTrace "/r/p" ApiResult.exn 1 20 0 1 1 procState6).state =
        procState6 ∧
      (processCandidate absentTrace "/r/p" ApiResult.exn 1 20 0 1 1 procState6).posted =
        false ∧
      (processCandidate absentTrace "/r/p" ApiResult.exn 1 20 0 1 1 procState6).wait =
        wait_for_stable_file absentTrace 1 20 0 1 1) :=
  ⟨rfl, c6_skip_only_after_wait absentTrace "/r/p" ApiResult.exn 1 20 0 1 1 procState6 rfl⟩

/-- Claim C7 (confirmed): when every downstream call fails (non-200 or a
raised transport error), a stable dequeued path is still recorded: the
final store maps it to the processed record, and it is POSTed exactly once
over the whole drain. The drain is a total function of the queue — the
consumer continues past the failure to every remaining item. -/
theorem c7_failure_still_recorded_once (api : String → ApiResult)
    (hfail : ∀ q, api q ≠ ApiResult.success) (p : String) (s : SysState)
    (hp : alookup s.mem p = none) (qs : List String) (hq : p ∈ qs) :
    alookup (drainQueue api s qs).1.mem p = some procRecord ∧
    (drainQueue api s qs).2.count p = 1 :=
  (drainQueue_absent api p qs s hp).1 hq

/-- Witness for C7: an always-raising downstream, a fresh store, a queue
holding the path and one more item. -/
theorem c7_witness :
    (fun _ : String => ApiResult.exn) "/r/a" ≠ ApiResult.success ∧
    "/r/a" ∈ ["/r/a", "/r/b"] ∧
    alookup (drainQueue (fun _ => ApiResult.exn) (SysState.mk [] none)
      ["/r/a", "/r/b"]).1.mem "/r/a" = some procRecord ∧
    (drainQueue (fun _ => ApiResult.exn) (SysState.mk [] none)
      ["/r/a", "/r/b"]).2.count "/r/a" = 1 := by
  have h := c7_failure_still_recorded_once (fun _ => ApiResult.exn)
    (fun _ hc => ApiResult.noConfusion hc) "/r/a" (SysState.mk [] none) rfl
    ["/r/a", "/r/b"] (by decide)
  exact ⟨by decide, by decide, h.1, h.2⟩

/-- Counterexample to C8: with a failing `save_processed_replays`, the
worker loop on queue `[/r/a, /r/b]` dies after the first item — the
exception is uncaught (lines 74-76 sit outside the try block and
`parse_worker` has no handler), the run ends crashed, and `/r/b` is never
processed. A persistence failure is therefore fatal to the consumer loop. -/
theorem c8_counterexample :
    runWorkerF false (fun _ => ApiResult.success) (SysState.mk [] none) ["/r/a", "/r/b"] =
      (SysState.mk [("/r/a", procRecord)] none, ["/r/a"], true) ∧
    alookup (runWorkerF false (fun _ => ApiResult.success) (SysState.mk [] none)
      ["/r/a", "/r/b"]).1.mem "/r/b" = none :=
  ⟨rfl, rfl⟩

/-- Claim C8 as amended: when persisting the dedup store fails, the
in-memory mapping does retain the record (the dict assignment precedes the
write) and the disk is left unchanged, but the exception is not caught or
logged — it escapes `parse_replay` and terminates the consumer loop,
leaving the rest of the queue unprocessed. -/
theorem c8_save_failure_crashes_loop (p : String) (api : String → ApiResult)
    (s : SysState) (ps : List String) (h : alookup s.mem p = none) :
    (parse_replay_f false p (api p) s).crashed = true ∧
    alookup (parse_replay_f false p (api p) s).state.mem p = some procRecord ∧
    (parse_replay_f false p (api p) s).state.disk = s.disk ∧
    runWorkerF false api s (p :: ps) =
      ((parse_replay_f false p (api p) s).state, [p], true) := by
  have hstep : parse_replay_f false p (api p) s =
      ParseStepF.mk { s with mem := setKey s.mem p procRecord } true true := by
    cases hres : api p <;> simp [parse_replay_f, h]
  refine ⟨by simp [hstep], ?_, by simp [hstep], ?_⟩
  · rw [hstep]
    simp [alookup_setKey_self]
  · simp [runWorkerF, hstep]

/-- Witness for C8: the amended claim at a fresh store and a two-item
queue. -/
theorem c8_witness :
    alookup (SysState.mk [] none).mem "/r/a" = none ∧
    ((parse_replay_f false "/r/a" ((fun _ => ApiResult.success) "/r/a")
        (SysState.mk [] none)).crashed = true ∧
      alookup (parse_replay_f false "/r/a" ((fun _ => ApiResult.success) "/r/a")
        (SysState.mk [] none)).state.mem "/r/a" = some procRecord ∧
      (parse_replay_f false "/r/a" ((fun _ => ApiResult.success) "/r/a")
        (SysState.mk [] none)).state.disk = (SysState.mk [] none).disk ∧
      runWorkerF false (fun _ => ApiResult.success) (SysState.mk [] none)
        ["/r/a", "/r/b"] =
        ((parse_replay_f false "/r/a" ((fun _ => ApiResult.success) "/r/a")
          (SysState.mk [] none)).state, ["/r/a"], true)) :=
  ⟨rfl, c8_save_failure_crashes_loop "/r/a" (fun _ => ApiResult.success)
    (SysState.mk [] none) ["/r/b"] rfl⟩

/-- Counterexample to C9: the record `parse_replay` writes and persists for
a fresh path is exactly `{status: "processed"}` — it has no `observed_at`
field at all. -/
theorem c9_counterexample :
    alookup (parse_replay "/r/a" ApiResult.success (SysState.mk [] none)).state.mem
      "/r/a" = some procRecord ∧
    alookup procRecord "status" = some "processed" ∧
    alookup procRecord "observed_at" = none :=
  ⟨rfl, rfl, rfl⟩

/-- Claim C9 as amended: every ProcessingRecord written by the dispatcher
and persisted maps the path to a value whose only field is
`status = "processed"`; no `observed_at` timestamp is written. -/
theorem c9_record_status_only (p : String) (res : ApiResult) (s : SysState)
    (h : alookup s.mem p = none) :
    alookup (parse_replay p res s).state.mem p = some procRecord ∧
    (parse_replay p res s).state.disk = some (parse_replay p res s).state.mem ∧
    alookup procRecord "status" = some "processed" ∧
    alookup procRecord "observed_at" = none := by
  rw [parse_replay_of_absent p res s h]
  refine ⟨?_, rfl, rfl, rfl⟩
  simp [markProcessed, save_processed_replays, alookup_setKey_self]

/-- Witness for C9: a fresh path through `parse_replay` with a non-200
response. -/
theorem c9_witness :
    alookup (SysState.mk [] none).mem "/r/a" = none ∧
    (alookup (parse_replay "/r/a" (ApiResult.apiError 500)
        (SysState.mk [] none)).state.mem "/r/a" = some procRecord ∧
      (parse_replay "/r/a" (ApiResult.apiError 500) (SysState.mk [] none)).state.disk =
        some (parse_replay "/r/a" (ApiResult.apiError 500)
          (SysState.mk [] none)).state.mem ∧
      alookup procRecord "status" = some "processed" ∧
      alookup procRecord "observed_at" = none) :=
  ⟨rfl, c9_record_status_only "/r/a" (ApiResult.apiError 500) (SysState.mk [] none) rfl⟩

/-- Claim C10 (confirmed): the first poll compares against the initial
`last_size = -1`, which no natural size equals (second conjunct), so on a
file of constant size the first pass exits only after `stableSeconds + 1`
polls — never after exactly `stableSeconds` — reaching initial stability at
tick `t + stableSeconds + 1`. -/
theorem c10_first_pass_needs_extra_poll (file : FileTrace) (c ss t fuel : Nat)
    (hconst : ∀ u, file u = some c) (hss : 0 < ss) (hfuel : ss + 2 ≤ fuel) :
    firstPass file ss fuel (-1 : Int) 0 t 0 =
      FirstPassOut.done (t + (ss + 1)) (c : Int) (ss + 1) ∧
    ∀ n : Nat, ¬((n : Int) = (-1 : Int)) :=
  ⟨firstPass_const_fresh file c ss t fuel hconst hss hfuel, fun n => by omega⟩

/-- Witness for C10: a constant size-7 file with `stable_seconds = 3`
needs 4 polls. -/
theorem c10_witness :
    0 < 3 ∧ 3 + 2 ≤ 5 ∧
    firstPass constTrace7 3 5 (-1 : Int) 0 0 0 =
      FirstPassOut.done (0 + (3 + 1)) ((7 : Nat) : Int) (3 + 1) :=
  ⟨by decide, by decide, (c10_first_pass_needs_extra_poll constTrace7 7 3 0 5
    (fun _ => rfl) (by decide) (by decide)).1⟩

end WatchReplays
